import Mathlib

/-!
Shallow embedding of `src/sequences.py`: nucleic-acid sequence classes with
alphabet validation, quality-weighted concatenation, reverse-complement and
transcription. Python runtime errors (ZeroDivisionError, KeyError, raised
exceptions) are modelled by an explicit error channel `Except PyError`.
Qualities are modelled as rationals, since every quality the code computes
comes from integer arithmetic and a single exact division.
-/

namespace Sequences

instance {ε α : Type} [DecidableEq ε] [DecidableEq α] : DecidableEq (Except ε α) := fun x y =>
  match x, y with
  | .ok a, .ok b =>
    if h : a = b then .isTrue (by rw [h]) else .isFalse (fun hc => h (Except.ok.inj hc))
  | .error a, .error b =>
    if h : a = b then .isTrue (by rw [h]) else .isFalse (fun hc => h (Except.error.inj hc))
  | .ok _, .error _ => .isFalse (fun hc => Except.noConfusion hc)
  | .error _, .ok _ => .isFalse (fun hc => Except.noConfusion hc)

/-- Runtime failures the Python code can produce, plus the two error kinds
named by the specification (`invalidAlphabet`, `degenerateCombination`),
modelled from the spec so that claims mentioning them can be stated; the
code itself never constructs those two. -/
inductive PyError where
  | zeroDivisionError : PyError
  | keyError : Char → PyError
  | exception : String → PyError
  | invalidAlphabet : String → String → PyError
  | degenerateCombination : PyError
  deriving DecidableEq

/-- True exactly on the spec-modelled `invalidAlphabet` error kind. -/
def PyError.isInvalidAlphabet : PyError → Bool
  | .invalidAlphabet _ _ => true
  | _ => false

/-- A fully constructed `Sequence` object: attributes `sequence` and
`quality`, as set by `Sequence.__init__`. -/
structure Sequence where
  sequence : List Char
  quality : ℚ
  deriving DecidableEq

/-- `Sequence.__add__`: concatenates residues and takes the length-weighted
average of the qualities.  The Python division raises `ZeroDivisionError`
when both operands are empty; there is no guard in the code. -/
def Sequence.add (a other : Sequence) : Except PyError Sequence :=
  if a.sequence.length + other.sequence.length = 0 then
    .error .zeroDivisionError
  else
    .ok { sequence := a.sequence ++ other.sequence
          quality := ((a.sequence.length : ℚ) * a.quality +
                      (other.sequence.length : ℚ) * other.quality) /
                     ((a.sequence.length : ℚ) + (other.sequence.length : ℚ)) }

/-- The DNA alphabet `{'A','C','G','T'}` of `DNASequence.__init__`. -/
def dnaAlphabet : List Char := ['A', 'C', 'G', 'T']

/-- The RNA alphabet `{'A','C','G','U'}` of `RNASequence.__init__`. -/
def rnaAlphabet : List Char := ['A', 'C', 'G', 'U']

/-- The object state left behind by `DNASequence.__init__`: on valid input
`Sequence.__init__` sets both attributes; on invalid input neither attribute
is ever assigned, so both are absent (`none`). -/
structure DNAInstance where
  sequence : Option (List Char)
  quality : Option ℚ
  deriving DecidableEq

/-- `DNASequence.__init__`: checks `set(sequence) <= {A,C,G,T}`.  On success
it delegates to `Sequence.__init__`; on failure it only prints a message and
returns normally, producing an object with no attributes set.  It never
raises, so the error channel is unused. -/
def DNASequence.init (sequence : List Char) (quality : ℚ) :
    Except PyError DNAInstance :=
  if ∀ c ∈ sequence, c ∈ dnaAlphabet then
    .ok { sequence := some sequence, quality := some quality }
  else
    .ok { sequence := none, quality := none }

/-- The `complement` dictionary of `DNASequence.reverse_complement`; lookup
of a key outside the dictionary is a Python `KeyError`, hence `Option`. -/
def complement (c : Char) : Option Char :=
  if c = 'A' then some 'T'
  else if c = 'T' then some 'A'
  else if c = 'C' then some 'G'
  else if c = 'G' then some 'C'
  else none

/-- The loop of `DNASequence.reverse_complement`: walks the given residue
list, appending `complement[base]` to the accumulator, and fails with
`KeyError` at the first base missing from the dictionary. -/
def rcLoop : List Char → List Char → Except PyError (List Char)
  | acc, [] => .ok acc
  | acc, base :: rest =>
    match complement base with
    | some c => rcLoop (acc ++ [c]) rest
    | none => .error (.keyError base)

/-- `DNASequence.reverse_complement`: iterates over `reversed(self.sequence)`
building the complement string, then wraps it in a plain `Sequence` with the
same quality. -/
def DNASequence.reverse_complement (s : Sequence) : Except PyError Sequence :=
  (rcLoop [] s.sequence.reverse).map fun rc =>
    { sequence := rc, quality := s.quality }

/-- The comprehension in `DNASequence.transcribe`: each base is kept
unchanged unless it is `'T'`, which becomes `'U'`. -/
def transcribeResidues (s : List Char) : List Char :=
  s.map fun base => if base ≠ 'T' then base else 'U'

/-- The literal message of the exception raised by `RNASequence.__init__`. -/
def rnaErrorMessage : String := "The input sequence isn\x27t valid RNA"

/-- `RNASequence.__init__`: checks `set(sequence) <= {A,C,G,U}`; on success
delegates to `Sequence.__init__`, on failure raises
`Exception("The input sequence isn\x27t valid RNA")`. -/
def RNASequence.init (sequence : List Char) (quality : ℚ) :
    Except PyError Sequence :=
  if ∀ c ∈ sequence, c ∈ rnaAlphabet then
    .ok { sequence := sequence, quality := quality }
  else
    .error (.exception rnaErrorMessage)

/-- `DNASequence.transcribe`: builds the T→U string and constructs an
`RNASequence` from it with the same quality (running RNA validation). -/
def DNASequence.transcribe (s : Sequence) : Except PyError Sequence :=
  RNASequence.init (transcribeResidues s.sequence) s.quality

/-- The pairing A↔T, C↔G as a total function, agreeing with the
`complement` dictionary on the DNA alphabet. -/
def pairMap (c : Char) : Char :=
  if c = 'A' then 'T'
  else if c = 'T' then 'A'
  else if c = 'C' then 'G'
  else if c = 'G' then 'C'
  else c

/-- The first residue of the list (in traversal order) that is missing from
the `complement` dictionary, if any: the base whose lookup raises. -/
def firstUnmapped : List Char → Option Char
  | [] => none
  | c :: rest => if complement c = none then some c else firstUnmapped rest

/-- Claim C7: constructing `DNASequence(s, q)` from a residue string over
{A,C,G,T} succeeds and exposes `sequence == s` and `quality == q` (both
attributes set by the delegated `Sequence.__init__`). -/
theorem dna_init_valid (s : List Char) (q : ℚ) (h : ∀ c ∈ s, c ∈ dnaAlphabet) :
    DNASequence.init s q = .ok { sequence := some s, quality := some q } := by
  unfold DNASequence.init
  rw [if_pos h]

theorem dna_init_valid_witness :
    DNASequence.init "AGT".toList 27 =
      .ok { sequence := some "AGT".toList, quality := some 27 } :=
  dna_init_valid "AGT".toList 27 (by decide)

/-- Claim C1, counterexample: constructing `DNASequence("X", 0)` does not
fail with any error — it returns normally, and the object it leaves behind
has neither its `sequence` nor its `quality` attribute set (a malformed
instance), contradicting the claim that construction fails with
`InvalidAlphabet` and produces no malformed instance. -/
theorem dna_init_invalid_counterexample :
    DNASequence.init ['X'] 0 = .ok { sequence := none, quality := none } := by decide

/-- Claim C1, amended: for every residue string containing a character
outside {A,C,G,T}, `DNASequence.__init__` does not raise; it only prints a
diagnostic and returns normally, leaving an instance whose `sequence` and
`quality` attributes were never assigned. -/
theorem dna_init_invalid_malformed (s : List Char) (q : ℚ)
    (h : ∃ c ∈ s, c ∉ dnaAlphabet) :
    DNASequence.init s q = .ok { sequence := none, quality := none } := by
  unfold DNASequence.init
  rw [if_neg (by push_neg; exact h)]

theorem dna_init_invalid_malformed_witness :
    DNASequence.init ['A', 'X', 'T'] 5 = .ok { sequence := none, quality := none } :=
  dna_init_invalid_malformed ['A', 'X', 'T'] 5 (by decide)

/-- Claim C2, counterexample: adding two empty sequences fails with the
propagated `ZeroDivisionError` of the quality average, which is not the
`DegenerateCombination` error the claim names (no such error kind exists
anywhere in the code). -/
theorem combine_empty_counterexample :
    Sequence.add { sequence := [], quality := 0 } { sequence := [], quality := 0 } =
      .error .zeroDivisionError ∧
    PyError.zeroDivisionError ≠ PyError.degenerateCombination := by decide

/-- Claim C2, amended: combining two empty sequences does fail rather than
produce a value, but the failure is the raw `ZeroDivisionError` from the
length-weighted quality division, not a dedicated `DegenerateCombination`
error. -/
theorem combine_empty_zero_division (a b : Sequence)
    (ha : a.sequence = []) (hb : b.sequence = []) :
    Sequence.add a b = .error .zeroDivisionError := by
  simp [Sequence.add, ha, hb]

theorem combine_empty_zero_division_witness :
    Sequence.add { sequence := [], quality := 0 } { sequence := [], quality := 0 } =
      .error .zeroDivisionError :=
  combine_empty_zero_division _ _ rfl rfl

/-- Claim C3: when at least one operand is non-empty, `Sequence.__add__`
returns a plain `Sequence` whose residues are the concatenation of the two
residue lists and whose quality is the length-weighted average
`(len(a)*a.quality + len(b)*b.quality) / (len(a)+len(b))`. -/
theorem combine_ok (a b : Sequence) (h : 0 < a.sequence.length + b.sequence.length) :
    Sequence.add a b =
      .ok { sequence := a.sequence ++ b.sequence
            quality := ((a.sequence.length : ℚ) * a.quality +
                        (b.sequence.length : ℚ) * b.quality) /
                       ((a.sequence.length : ℚ) + (b.sequence.length : ℚ)) } := by
  unfold Sequence.add
  rw [if_neg (Nat.pos_iff_ne_zero.mp h)]

theorem combine_ok_witness :
    Sequence.add { sequence := "AC".toList, quality := 10 }
        { sequence := "ACGT".toList, quality := 20 } =
      .ok { sequence := "ACACGT".toList, quality := 100/6 } := by
  rw [combine_ok { sequence := "AC".toList, quality := 10 }
        { sequence := "ACGT".toList, quality := 20 } (by decide)]
  norm_num

theorem transcribe_char_mem_rna {c : Char} (hc : c ∈ dnaAlphabet) :
    (if c ≠ 'T' then c else 'U') ∈ rnaAlphabet := by
  simp only [dnaAlphabet, List.mem_cons, List.not_mem_nil, or_false] at hc
  rcases hc with rfl | rfl | rfl | rfl <;> decide

theorem transcribe_eq (s : List Char) (q : ℚ) (h : ∀ c ∈ s, c ∈ dnaAlphabet) :
    DNASequence.transcribe { sequence := s, quality := q } =
      .ok { sequence := transcribeResidues s, quality := q } := by
  have hrna : ∀ c ∈ transcribeResidues s, c ∈ rnaAlphabet := by
    intro c hc
    obtain ⟨b, hb, rfl⟩ := List.mem_map.mp hc
    exact transcribe_char_mem_rna (h b hb)
  unfold DNASequence.transcribe RNASequence.init
  rw [if_pos hrna]

/-- Claim C4: transcription of a valid DNA sequence succeeds (passing RNA
validation at construction), keeps the quality, keeps the length, has `'U'`
at a position exactly where the input has `'T'`, and leaves every other
position unchanged; the residues are the T→U image of the input. -/
theorem transcribe_spec (s : List Char) (q : ℚ) (h : ∀ c ∈ s, c ∈ dnaAlphabet) :
    DNASequence.transcribe { sequence := s, quality := q } =
      .ok { sequence := transcribeResidues s, quality := q } ∧
    (transcribeResidues s).length = s.length ∧
    (∀ i : ℕ, (transcribeResidues s)[i]? = some 'U' ↔ s[i]? = some 'T') ∧
    (∀ i : ℕ, s[i]? ≠ some 'T' → (transcribeResidues s)[i]? = s[i]?) := by
  refine ⟨transcribe_eq s q h, List.length_map s _, ?_, ?_⟩
  · intro i
    rw [transcribeResidues, List.getElem?_map]
    cases hsi : s[i]? with
    | none => simp
    | some b =>
      have hdna := h b (List.getElem?_mem hsi)
      simp only [dnaAlphabet, List.mem_cons, List.not_mem_nil, or_false] at hdna
      rcases hdna with rfl | rfl | rfl | rfl <;> simp
  · intro i hi
    rw [transcribeResidues, List.getElem?_map]
    cases hsi : s[i]? with
    | none => rfl
    | some b =>
      rw [hsi] at hi
      have hb : b ≠ 'T' := fun hbT => hi (by rw [hbT])
      simp [hb]

theorem transcribe_spec_witness :
    DNASequence.transcribe { sequence := "AGT".toList, quality := 27 } =
      .ok { sequence := "AGU".toList, quality := 27 } := by
  have h := (transcribe_spec "AGT".toList 27 (by decide)).1
  rw [h]
  decide

/-- Claim C8, counterexample: constructing `RNASequence("Z", 0)` does fail,
but with a generic `Exception` carrying the fixed message
`The input sequence isn\x27t valid RNA`: the message never mentions the
invalid character `'Z'` (nor the input), and the error is not the
spec-modelled `InvalidAlphabet` kind, contradicting the claim that the
error identifies the invalid character(s) or full input. -/
theorem rna_init_counterexample :
    RNASequence.init ['Z'] 0 = .error (.exception rnaErrorMessage) ∧
    'Z' ∉ rnaErrorMessage.toList ∧
    (PyError.exception rnaErrorMessage).isInvalidAlphabet = false := by decide

/-- Claim C8, amended: for every residue string containing a character
outside {A,C,G,U}, `RNASequence.__init__` raises a generic `Exception`
whose fixed message names the RNA variant but not the invalid characters or
input, and no initialised instance is produced. -/
theorem rna_init_invalid_exception (s : List Char) (q : ℚ)
    (h : ∃ c ∈ s, c ∉ rnaAlphabet) :
    RNASequence.init s q = .error (.exception rnaErrorMessage) := by
  unfold RNASequence.init
  rw [if_neg (by push_neg; exact h)]

theorem rna_init_invalid_exception_witness :
    RNASequence.init ['A', 'Z'] 30 = .error (.exception rnaErrorMessage) :=
  rna_init_invalid_exception ['A', 'Z'] 30 (by decide)

theorem complement_eq_pairMap {c : Char} (hc : c ∈ dnaAlphabet) :
    complement c = some (pairMap c) := by
  simp only [dnaAlphabet, List.mem_cons, List.not_mem_nil, or_false] at hc
  rcases hc with rfl | rfl | rfl | rfl <;> decide

theorem pairMap_mem_dna {c : Char} (hc : c ∈ dnaAlphabet) : pairMap c ∈ dnaAlphabet := by
  simp only [dnaAlphabet, List.mem_cons, List.not_mem_nil, or_false] at hc ⊢
  rcases hc with rfl | rfl | rfl | rfl <;> decide

theorem pairMap_pairMap {c : Char} (hc : c ∈ dnaAlphabet) : pairMap (pairMap c) = c := by
  simp only [dnaAlphabet, List.mem_cons, List.not_mem_nil, or_false] at hc
  rcases hc with rfl | rfl | rfl | rfl <;> decide

theorem rcLoop_ok : ∀ (l acc : List Char), (∀ c ∈ l, c ∈ dnaAlphabet) →
    rcLoop acc l = .ok (acc ++ l.map pairMap)
  | [], acc, _ => by simp [rcLoop]
  | b :: rest, acc, h => by
    have hb : b ∈ dnaAlphabet := h b (List.mem_cons_self b rest)
    simp only [rcLoop, complement_eq_pairMap hb]
    rw [rcLoop_ok rest (acc ++ [pairMap b]) (fun c hc => h c (List.mem_cons_of_mem b hc))]
    simp

theorem reverse_complement_eq (s : List Char) (q : ℚ) (h : ∀ c ∈ s, c ∈ dnaAlphabet) :
    DNASequence.reverse_complement { sequence := s, quality := q } =
      .ok { sequence := s.reverse.map pairMap, quality := q } := by
  have hrev : ∀ c ∈ s.reverse, c ∈ dnaAlphabet := fun c hc => h c (List.mem_reverse.mp hc)
  unfold DNASequence.reverse_complement
  rw [rcLoop_ok s.reverse [] hrev]
  rfl

/-- Claim C5: reverse-complement of a valid DNA sequence succeeds and
returns a plain `Sequence` whose residues are the reverse of the input with
each residue mapped by the pairing A↔T, C↔G, and whose quality is carried
over unchanged. -/
theorem reverse_complement_spec (s : List Char) (q : ℚ)
    (h : ∀ c ∈ s, c ∈ dnaAlphabet) :
    DNASequence.reverse_complement { sequence := s, quality := q } =
      .ok { sequence := s.reverse.map pairMap, quality := q } :=
  reverse_complement_eq s q h

theorem reverse_complement_spec_witness :
    DNASequence.reverse_complement { sequence := "AGT".toList, quality := 27 } =
      .ok { sequence := "ACT".toList, quality := 27 } := by
  rw [reverse_complement_spec "AGT".toList 27 (by decide)]
  decide

/-- Claim C6: applying reverse-complement twice to a valid DNA sequence
restores the original residues (and quality): both applications succeed and
the composite returns the original sequence. -/
theorem reverse_complement_involution (s : List Char) (q : ℚ)
    (h : ∀ c ∈ s, c ∈ dnaAlphabet) :
    (DNASequence.reverse_complement { sequence := s, quality := q }).bind
        DNASequence.reverse_complement = .ok { sequence := s, quality := q } := by
  rw [reverse_complement_eq s q h]
  have h2 : ∀ c ∈ s.reverse.map pairMap, c ∈ dnaAlphabet := by
    intro c hc
    obtain ⟨b, hb, rfl⟩ := List.mem_map.mp hc
    exact pairMap_mem_dna (h b (List.mem_reverse.mp hb))
  show DNASequence.reverse_complement { sequence := s.reverse.map pairMap, quality := q } = _
  rw [reverse_complement_eq _ q h2]
  have h3 : (s.reverse.map pairMap).reverse.map pairMap = s := by
    have h4 : (s.reverse.map pairMap).map pairMap = s.reverse := by
      rw [List.map_map]
      have h5 : ∀ c ∈ s.reverse, (pairMap ∘ pairMap) c = id c := fun c hc =>
        pairMap_pairMap (h c (List.mem_reverse.mp hc))
      rw [List.map_congr_left h5, List.map_id]
    rw [List.map_reverse, h4, List.reverse_reverse]
  rw [h3]

theorem reverse_complement_involution_witness :
    (DNASequence.reverse_complement { sequence := "AGT".toList, quality := 27 }).bind
        DNASequence.reverse_complement =
      .ok { sequence := "AGT".toList, quality := 27 } :=
  reverse_complement_involution "AGT".toList 27 (by decide)

theorem rcLoop_err : ∀ (l acc : List Char) (c : Char), firstUnmapped l = some c →
    rcLoop acc l = .error (.keyError c)
  | [], _, _, h => by simp [firstUnmapped] at h
  | b :: rest, acc, c, h => by
    by_cases hb : complement b = none
    · rw [firstUnmapped, if_pos hb] at h
      cases h
      simp [rcLoop, hb]
    · rw [firstUnmapped, if_neg hb] at h
      obtain ⟨d, hd⟩ := Option.ne_none_iff_exists'.mp hb
      simp only [rcLoop, hd]
      exact rcLoop_err rest (acc ++ [d]) c h

/-- Claim C9, counterexample: reverse-complement of a sequence holding a
residue with no defined complement fails with the dictionary lookup
`KeyError`, which is not the `InvalidAlphabet` error kind the claim
names. -/
theorem reverse_complement_counterexample :
    DNASequence.reverse_complement { sequence := ['X'], quality := 0 } =
      .error (.keyError 'X') ∧
    (PyError.keyError 'X').isInvalidAlphabet = false := by decide

/-- Claim C9, amended: when some residue lacks a defined complement,
reverse-complement fails — but with the uncaught `KeyError` of the
`complement` dictionary lookup, naming the first unmapped residue in the
reversed traversal order, not with an `InvalidAlphabet` error. -/
theorem reverse_complement_key_error (s : List Char) (q : ℚ) (c : Char)
    (h : firstUnmapped s.reverse = some c) :
    DNASequence.reverse_complement { sequence := s, quality := q } =
      .error (.keyError c) := by
  unfold DNASequence.reverse_complement
  rw [rcLoop_err s.reverse [] c h]
  rfl

theorem reverse_complement_key_error_witness :
    DNASequence.reverse_complement { sequence := ['A', 'X'], quality := 2 } =
      .error (.keyError 'X') :=
  reverse_complement_key_error ['A', 'X'] 2 'X' (by decide)

/-- Claim C10: whenever `Sequence.__add__` succeeds, the quality of the
result — the length-weighted average of the operand qualities — lies
between the minimum and the maximum of the two operand qualities. -/
theorem combine_quality_bounds (a b c : Sequence) (h : Sequence.add a b = .ok c) :
    min a.quality b.quality ≤ c.quality ∧ c.quality ≤ max a.quality b.quality := by
  unfold Sequence.add at h
  by_cases hlen : a.sequence.length + b.sequence.length = 0
  · rw [if_pos hlen] at h
    exact absurd h (by simp)
  · rw [if_neg hlen] at h
    injection h with h2
    subst h2
    have hla : (0:ℚ) ≤ (a.sequence.length : ℚ) := Nat.cast_nonneg _
    have hlb : (0:ℚ) ≤ (b.sequence.length : ℚ) := Nat.cast_nonneg _
    have hd : (0:ℚ) < (a.sequence.length : ℚ) + (b.sequence.length : ℚ) := by
      have hpos : 0 < a.sequence.length + b.sequence.length := Nat.pos_of_ne_zero hlen
      exact_mod_cast hpos
    constructor
    · show min a.quality b.quality ≤ _ / _
      rw [le_div_iff₀ hd]
      nlinarith [mul_nonneg (sub_nonneg.mpr (min_le_left a.quality b.quality)) hla,
                 mul_nonneg (sub_nonneg.mpr (min_le_right a.quality b.quality)) hlb]
    · show _ / _ ≤ max a.quality b.quality
      rw [div_le_iff₀ hd]
      nlinarith [mul_nonneg (sub_nonneg.mpr (le_max_left a.quality b.quality)) hla,
                 mul_nonneg (sub_nonneg.mpr (le_max_right a.quality b.quality)) hlb]

theorem combine_quality_bounds_witness :
    min (1:ℚ) 4 ≤ (3:ℚ) ∧ (3:ℚ) ≤ max (1:ℚ) 4 :=
  combine_quality_bounds { sequence := ['A'], quality := 1 }
    { sequence := ['A', 'A'], quality := 4 }
    { sequence := ['A', 'A', 'A'], quality := 3 } (by norm_num [Sequence.add])

end Sequences
